import Mathlib

/-!
Verification of the `needless_lifetimes` lint core from `src/src/lifetimes.rs`:
the lifetime-descriptor data model (`RefLt`), the reference extractor
(`RefVisitor` / the recursive type walk), the uniqueness count
(`unique_lifetimes`) and the elision-eligibility decider (`could_use_elision`).
-/

/-- A lifetime (region) annotation as it appears in the AST: `ast::Lifetime`,
carrying its interned name.  Names are modelled as strings; the distinguished
whole-program region's name reads `'static` (with the leading quote), as
`lt.name.as_str() == "'static"` in the source compares it. -/
structure Lifetime where
  name : String
deriving DecidableEq, Repr

/-- The lifetime of a `&`-reference (`enum RefLt` in `src/src/lifetimes.rs`):
`Unnamed`, `Static`, or `Named(Name)`. -/
inductive RefLt where
  | Unnamed : RefLt
  | Static : RefLt
  | Named : String → RefLt
deriving DecidableEq, Repr, Inhabited

/-- `RefVisitor::record`: turn one optional lifetime annotation into the
descriptor pushed onto the visitor's vector.  `Some` with name `'static`
becomes `Static`, any other `Some` becomes `Named`, `None` becomes
`Unnamed`.  The source pushes exactly one descriptor per call; here the
pushed descriptor is returned and the callers append it. -/
def RefVisitor.record (lifetime : Option Lifetime) : RefLt :=
  match lifetime with
  | some lt => if lt.name = "\x27static" then RefLt.Static else RefLt.Named lt.name
  | none => RefLt.Unnamed

/-- A type expression, restricted to the composite shapes the extractor's
recursion distinguishes: plain/generic paths (with lifetime arguments and
type arguments), references, tuples, and object-sum types carrying lifetime
bounds. -/
inductive Ty where
  | path : String → List Lifetime → List Ty → Ty
  | ref : Option Lifetime → Ty → Ty
  | tup : List Ty → Ty
  | objectSum : Ty → List Lifetime → Ty

mutual

/-- Modelled from the spec: the recursive type walk (`syntax::visit::walk_ty`),
which is not part of this repository's sources, performs the "recursive
descent" of §4.1 and dispatches to the visitor methods at the points the
source's `impl Visitor for RefVisitor` documents: `visit_opt_lifetime_ref`
at each reference's region slot ("for lifetimes of references"),
`visit_lifetime_ref` at each region identifier appearing as a parameter of
a generic path ("for lifetimes as parameters of generics"), and
`visit_lifetime_bound` at each region bound ("for lifetime bounds").  The
three handlers themselves are translated from `src/src/lifetimes.rs`:
the first two record via `RefVisitor::record`, the bound handler is
overridden to do nothing. -/
def walk_ty : Ty → List RefLt
  | Ty.path _ ltArgs tyArgs =>
      ltArgs.map (fun lt => RefVisitor.record (some lt)) ++ walk_ty_list tyArgs
  | Ty.ref lt inner => RefVisitor.record lt :: walk_ty inner
  | Ty.tup elems => walk_ty_list elems
  | Ty.objectSum inner _bounds => walk_ty inner

/-- Walking a list of types in order, appending into one vector (the
source threads a single `&mut RefVisitor` through consecutive `walk_ty`
calls). -/
def walk_ty_list : List Ty → List RefLt
  | [] => []
  | t :: ts => walk_ty t ++ walk_ty_list ts

end

/-- `fn unique_lifetimes`: number of unique lifetimes in the given vector,
`lts.iter().collect::<HashSet<_>>().len()` — the number of distinct
descriptors under `RefLt` equality. -/
def unique_lifetimes (lts : List RefLt) : Nat :=
  lts.toFinset.card

/-- The decision portion of `fn could_use_elision` (everything after
`into_vec()`), as a function of the two collected descriptor sequences. -/
def could_use_elision_core (input_lts output_lts : List RefLt) : Bool :=
  if input_lts.isEmpty then
    -- no input lifetimes? easy case!
    false
  else if output_lts.isEmpty then
    -- only one reference with unnamed lifetime, ok
    if input_lts.length = 1 ∧ input_lts.headI = RefLt.Unnamed then
      false
    -- no output reference, so we only need all distinct lifetimes
    else if input_lts.length = unique_lifetimes input_lts then
      true
    else
      false
  else
    -- output references: need one input reference, all output lifetimes equal
    if 1 < unique_lifetimes output_lts then
      false
    else if input_lts.length = 1 then
      match input_lts.headI, output_lts.headI with
      | RefLt.Named n1, RefLt.Named n2 => n1 == n2
      | RefLt.Named _, RefLt.Unnamed => true
      | RefLt.Unnamed, RefLt.Named _ => true
      | _, _ => false
    else
      false

/-- `ExplicitSelf_`: the shape of a method's receiver.  `SelfRegion` is the
by-reference receiver carrying its optional region out-of-band;
`SelfExplicit` carries a fully written receiver type. -/
inductive ExplicitSelf where
  | SelfStatic : ExplicitSelf
  | SelfValue : ExplicitSelf
  | SelfRegion : Option Lifetime → ExplicitSelf
  | SelfExplicit : Ty → ExplicitSelf

/-- `visit::FnKind`: a free function/closure, or a method with its
receiver shape. -/
inductive FnKind where
  | FkItemFn : FnKind
  | FkMethod : ExplicitSelf → FnKind
  | FkFnBlock : FnKind

/-- `ast::FnDecl`: the declared parameter types and the optional explicitly
written return type (`Return(ty)`; an absent return type contributes no
output descriptors). -/
structure FnDecl where
  inputs : List Ty
  output : Option Ty

/-- The input-side extraction of `fn could_use_elision`: the receiver's
region for a `SelfRegion` method (recorded directly, out-of-band), the walk
of the receiver type for `SelfExplicit`, then the walk of each parameter
type, all appended into one vector (`input_visitor.into_vec()`). -/
def fn_input_lts (kind : FnKind) (func : FnDecl) : List RefLt :=
  (match kind with
   | FnKind.FkMethod es =>
       match es with
       | ExplicitSelf.SelfRegion olt => [RefVisitor.record olt]
       | ExplicitSelf.SelfExplicit ty => walk_ty ty
       | _ => []
   | _ => []) ++ walk_ty_list func.inputs

/-- The output-side extraction of `fn could_use_elision`: the walk of the
declared return type when one is written, otherwise nothing
(`output_visitor.into_vec()`). -/
def fn_output_lts (func : FnDecl) : List RefLt :=
  match func.output with
  | some ty => walk_ty ty
  | none => []

/-- `fn could_use_elision(kind, func)`: extract the input-side and
output-side descriptor sequences, then decide. -/
def could_use_elision (kind : FnKind) (func : FnDecl) : Bool :=
  could_use_elision_core (fn_input_lts kind func) (fn_output_lts func)


mutual

/-- Erase every lifetime-bound list from a type expression, leaving all
other structure (references, generic lifetime parameters, nesting) intact.
Used to state that bounds contribute nothing to the extraction. -/
def strip_bounds : Ty → Ty
  | Ty.path seg ltArgs tyArgs => Ty.path seg ltArgs (strip_bounds_list tyArgs)
  | Ty.ref lt inner => Ty.ref lt (strip_bounds inner)
  | Ty.tup elems => Ty.tup (strip_bounds_list elems)
  | Ty.objectSum inner _bounds => Ty.objectSum (strip_bounds inner) []

/-- `strip_bounds` mapped over a list of types. -/
def strip_bounds_list : List Ty → List Ty
  | [] => []
  | t :: ts => strip_bounds t :: strip_bounds_list ts

end

/-- If `record` produces a `Named` descriptor, its identifier is not the
static one: the static name is intercepted and mapped to `Static`. -/
lemma record_named_ne_static (olt : Option Lifetime) (n : String)
    (h : RefVisitor.record olt = RefLt.Named n) : n ≠ "\x27static" := by
  cases olt with
  | none => simp [RefVisitor.record] at h
  | some lt =>
    by_cases hs : lt.name = "\x27static"
    · simp [RefVisitor.record, hs] at h
    · simp [RefVisitor.record, hs] at h
      intro hn
      exact hs (h.trans hn)

/-- Every `Named` descriptor collected by the walk carries a non-static
identifier (joint statement for `walk_ty` and `walk_ty_list`). -/
lemma walk_named_ne_static :
    (∀ t : Ty, ∀ n : String, RefLt.Named n ∈ walk_ty t → n ≠ "\x27static") ∧
    (∀ ts : List Ty, ∀ n : String, RefLt.Named n ∈ walk_ty_list ts → n ≠ "\x27static") := by
  refine walk_ty.mutual_induct
    (fun t => ∀ n : String, RefLt.Named n ∈ walk_ty t → n ≠ "\x27static")
    (fun ts => ∀ n : String, RefLt.Named n ∈ walk_ty_list ts → n ≠ "\x27static")
    ?_ ?_ ?_ ?_ ?_ ?_
  · intro seg ltArgs tyArgs ih n hmem
    rw [walk_ty, List.mem_append] at hmem
    rcases hmem with hmem | hmem
    · rcases List.mem_map.mp hmem with ⟨lt, _, hlt⟩
      exact record_named_ne_static (some lt) n hlt
    · exact ih n hmem
  · intro lt inner ih n hmem
    rw [walk_ty, List.mem_cons] at hmem
    rcases hmem with hmem | hmem
    · exact record_named_ne_static lt n hmem.symm
    · exact ih n hmem
  · intro elems ih n hmem
    rw [walk_ty] at hmem
    exact ih n hmem
  · intro inner bounds ih n hmem
    rw [walk_ty] at hmem
    exact ih n hmem
  · intro n hmem
    rw [walk_ty_list] at hmem
    simp at hmem
  · intro t ts iht ihts n hmem
    rw [walk_ty_list, List.mem_append] at hmem
    rcases hmem with hmem | hmem
    · exact iht n hmem
    · exact ihts n hmem

/-- Erasing every lifetime-bound list leaves the collected descriptor
sequence unchanged (joint statement for `walk_ty` and `walk_ty_list`). -/
lemma walk_strip_bounds :
    (∀ t : Ty, walk_ty (strip_bounds t) = walk_ty t) ∧
    (∀ ts : List Ty, walk_ty_list (strip_bounds_list ts) = walk_ty_list ts) := by
  refine walk_ty.mutual_induct
    (fun t => walk_ty (strip_bounds t) = walk_ty t)
    (fun ts => walk_ty_list (strip_bounds_list ts) = walk_ty_list ts)
    ?_ ?_ ?_ ?_ ?_ ?_
  · intro seg ltArgs tyArgs ih
    rw [strip_bounds, walk_ty, walk_ty, ih]
  · intro lt inner ih
    rw [strip_bounds, walk_ty, walk_ty, ih]
  · intro elems ih
    rw [strip_bounds, walk_ty, walk_ty, ih]
  · intro inner bounds ih
    rw [strip_bounds, walk_ty, walk_ty, ih]
  · rfl
  · intro t ts iht ihts
    rw [strip_bounds_list, walk_ty_list, walk_ty_list, iht, ihts]

/-- The `FnDecl` of `fn f(x: &i32, y: &i32) -> i32`: two by-reference
parameters with no written region, and a non-reference return type. -/
def two_unnamed_refs_decl : FnDecl :=
  { inputs := [Ty.ref none (Ty.path "i32" [] []), Ty.ref none (Ty.path "i32" [] [])],
    output := some (Ty.path "i32" [] []) }

/-- Claim C1 (as stated, refuted): for `fn f(x: &i32, y: &i32) -> i32`
extraction does yield input `[Unnamed, Unnamed]` and an empty output
sequence, but the uniqueness count of that input sequence is NOT its
length 2 (the two `Unnamed` duplicates collapse), and the decider returns
`false`, not `true`. -/
theorem unnamed_pair_claim_counterexample :
    fn_input_lts FnKind.FkItemFn two_unnamed_refs_decl = [RefLt.Unnamed, RefLt.Unnamed] ∧
    fn_output_lts two_unnamed_refs_decl = [] ∧
    ¬ (unique_lifetimes (fn_input_lts FnKind.FkItemFn two_unnamed_refs_decl) = 2 ∧
       could_use_elision FnKind.FkItemFn two_unnamed_refs_decl = true) := by
  decide

/-- Claim C1 (amended): for `fn f(x: &i32, y: &i32) -> i32` extraction
yields input `[Unnamed, Unnamed]` and an empty output sequence; the
uniqueness count of the input sequence is 1 (the duplicated `Unnamed`
collapses), which differs from the length 2, and the decider returns
`false`. -/
theorem unnamed_pair_extraction_and_verdict :
    fn_input_lts FnKind.FkItemFn two_unnamed_refs_decl = [RefLt.Unnamed, RefLt.Unnamed] ∧
    fn_output_lts two_unnamed_refs_decl = [] ∧
    unique_lifetimes (fn_input_lts FnKind.FkItemFn two_unnamed_refs_decl) = 1 ∧
    could_use_elision FnKind.FkItemFn two_unnamed_refs_decl = false := by
  decide

/-- Claim C2 (as stated, refuted): a region identifier appearing as a
parameter of a generic path — attached to no reference — IS recorded as a
descriptor by the extractor (`visit_lifetime_ref`, "for lifetimes as
parameters of generics"), so the sequence for `Foo<'a>` is `[Named 'a]`,
not `[]`. -/
theorem generic_lifetime_param_recorded :
    walk_ty (Ty.path "Foo" [Lifetime.mk "\x27a"] []) = [RefLt.Named "\x27a"] ∧
    walk_ty (Ty.path "Foo" [Lifetime.mk "\x27a"] []) ≠ [] := by
  decide

/-- Claim C2 (amended): region identifiers used purely as lifetime bounds
contribute no descriptor — erasing every bound list from a type leaves the
extracted sequence unchanged — while regions attached to a reference and
region identifiers appearing as generic path parameters are recorded. -/
theorem bounds_not_recorded :
    (∀ t : Ty, walk_ty (strip_bounds t) = walk_ty t) ∧
    (∀ (lt : Option Lifetime) (inner : Ty),
        walk_ty (Ty.ref lt inner) = RefVisitor.record lt :: walk_ty inner) ∧
    (∀ (seg : String) (ltArgs : List Lifetime),
        walk_ty (Ty.path seg ltArgs []) = ltArgs.map (fun lt => RefVisitor.record (some lt))) := by
  refine ⟨walk_strip_bounds.1, fun lt inner => ?_, fun seg ltArgs => ?_⟩
  · rw [walk_ty]
  · rw [walk_ty, walk_ty_list, List.append_nil]

/-- Claim C3: with an empty output sequence, a non-empty input sequence
other than a lone `Unnamed`, and all input descriptors pairwise distinct
(uniqueness count equals length), the decider returns `true`; in
particular any two-or-more pairwise-distinct explicit names with no output
reference yield `true`. -/
theorem no_output_all_distinct_elidable :
    (∀ input_lts output_lts : List RefLt,
        output_lts = [] → input_lts ≠ [] → input_lts ≠ [RefLt.Unnamed] →
        unique_lifetimes input_lts = input_lts.length →
        could_use_elision_core input_lts output_lts = true) ∧
    (∀ names : List String, 2 ≤ names.length → names.Nodup →
        could_use_elision_core (names.map RefLt.Named) [] = true) := by
  have main : ∀ input_lts output_lts : List RefLt,
      output_lts = [] → input_lts ≠ [] → input_lts ≠ [RefLt.Unnamed] →
      unique_lifetimes input_lts = input_lts.length →
      could_use_elision_core input_lts output_lts = true := by
    intro input output hout hne hsing huniq
    subst hout
    have hEmpty : input.isEmpty = false := by
      cases input with
      | nil => exact absurd rfl hne
      | cons x xs => rfl
    have hcond : ¬ (input.length = 1 ∧ input.headI = RefLt.Unnamed) := by
      rintro ⟨h1, h2⟩
      cases input with
      | nil => simp at h1
      | cons x xs =>
        cases xs with
        | nil =>
          simp [List.headI] at h2
          exact hsing (by rw [h2])
        | cons y ys => simp at h1
    simp [could_use_elision_core, hEmpty, hcond, huniq]
  refine ⟨main, fun names h2 hnodup => ?_⟩
  refine main _ [] rfl ?_ ?_ ?_
  · intro h
    rw [List.map_eq_nil_iff] at h
    subst h
    simp at h2
  · intro h
    rcases names with _ | ⟨n, ns⟩
    · simp at h
    · rcases ns with _ | ⟨m, ms⟩
      · simp at h
      · simp at h
  · have hnodup2 : (names.map RefLt.Named).Nodup :=
      hnodup.map (fun a b hab => by injection hab)
    rw [unique_lifetimes, List.toFinset_card_of_nodup hnodup2, List.length_map]

/-- Witness for C3 at a concrete input: two distinct names, no output. -/
theorem no_output_all_distinct_elidable_witness :
    (([RefLt.Named "a", RefLt.Named "b"] : List RefLt) ≠ []) ∧
    (([RefLt.Named "a", RefLt.Named "b"] : List RefLt) ≠ [RefLt.Unnamed]) ∧
    unique_lifetimes [RefLt.Named "a", RefLt.Named "b"] =
      ([RefLt.Named "a", RefLt.Named "b"] : List RefLt).length ∧
    could_use_elision_core [RefLt.Named "a", RefLt.Named "b"] [] = true :=
  ⟨by decide, by decide, by decide,
   no_output_all_distinct_elidable.1 _ _ rfl (by decide) (by decide) (by decide)⟩

/-- With a single-element input, a non-empty output whose uniqueness count
does not exceed 1, the decider reduces to the four-way comparison of the
input element against the first output element. -/
lemma core_single_input (i o : RefLt) (outs : List RefLt)
    (h : ¬ 1 < unique_lifetimes (o :: outs)) :
    could_use_elision_core [i] (o :: outs) =
      (match i, o with
       | RefLt.Named n1, RefLt.Named n2 => n1 == n2
       | RefLt.Named _, RefLt.Unnamed => true
       | RefLt.Unnamed, RefLt.Named _ => true
       | _, _ => false) := by
  unfold could_use_elision_core
  rw [if_neg (by simp : ¬ (([i] : List RefLt).isEmpty = true)),
      if_neg (by simp : ¬ ((o :: outs).isEmpty = true)),
      if_neg h, if_pos (by simp : ([i] : List RefLt).length = 1)]
  cases i <;> cases o <;> rfl

/-- Claim C4: with a non-empty output sequence of uniqueness count 1 and a
single-element input sequence, the decider returns `true` exactly when the
(input element, output region value) pair is `Named a`/`Named a`,
`Named _`/`Unnamed`, or `Unnamed`/`Named _`; every other combination
(differing names, `Static` on either side, `Unnamed`/`Unnamed`) yields
`false`. -/
theorem single_input_output_match_cases (i o : RefLt) (outs : List RefLt)
    (h : unique_lifetimes (o :: outs) = 1) :
    could_use_elision_core [i] (o :: outs) = true ↔
      ((∃ a, i = RefLt.Named a ∧ o = RefLt.Named a) ∨
       (∃ a, i = RefLt.Named a ∧ o = RefLt.Unnamed) ∨
       (∃ a, i = RefLt.Unnamed ∧ o = RefLt.Named a)) := by
  have hnotgt : ¬ (1 < unique_lifetimes (o :: outs)) := by omega
  rw [core_single_input i o outs hnotgt]
  cases i <;> cases o <;> simp [beq_iff_eq]
  constructor <;> (intro hx; exact hx.symm)

/-- Witness for C4 at a concrete input: `Named a` on both sides. -/
theorem single_input_output_match_cases_witness :
    unique_lifetimes [RefLt.Named "a"] = 1 ∧
    could_use_elision_core [RefLt.Named "a"] [RefLt.Named "a"] = true :=
  ⟨by decide,
   (single_input_output_match_cases (RefLt.Named "a") (RefLt.Named "a") [] (by decide)).mpr
     (Or.inl ⟨"a", rfl, rfl⟩)⟩

/-- Claim C5: whenever the output sequence has uniqueness count above 1
(two or more distinct output regions), the decider returns `false`
whatever the input sequence is. -/
theorem multiple_output_lifetimes_never_elidable (input_lts output_lts : List RefLt)
    (h : 1 < unique_lifetimes output_lts) :
    could_use_elision_core input_lts output_lts = false := by
  cases input_lts with
  | nil => simp [could_use_elision_core]
  | cons x xs =>
    have hout : output_lts.isEmpty = false := by
      cases output_lts with
      | nil => simp [unique_lifetimes] at h
      | cons y ys => rfl
    simp [could_use_elision_core, hout, h]

/-- Witness for C5 at a concrete input: two distinct output names. -/
theorem multiple_output_lifetimes_never_elidable_witness :
    1 < unique_lifetimes [RefLt.Named "a", RefLt.Named "b"] ∧
    could_use_elision_core [RefLt.Unnamed] [RefLt.Named "a", RefLt.Named "b"] = false :=
  ⟨by decide, multiple_output_lifetimes_never_elidable _ _ (by decide)⟩

/-- Claim C6: with a non-empty output sequence of uniqueness count at most
1 and an input sequence that does not have exactly one element, the
decider returns `false`. -/
theorem output_present_needs_single_input (input_lts output_lts : List RefLt)
    (h1 : output_lts ≠ []) (h2 : unique_lifetimes output_lts ≤ 1)
    (h3 : input_lts.length ≠ 1) :
    could_use_elision_core input_lts output_lts = false := by
  cases input_lts with
  | nil => simp [could_use_elision_core]
  | cons x xs =>
    have hout : output_lts.isEmpty = false := by
      cases output_lts with
      | nil => exact absurd rfl h1
      | cons y ys => rfl
    by_cases hgt : 1 < unique_lifetimes output_lts
    · simp [could_use_elision_core, hout, hgt]
    · simp [could_use_elision_core, hout, hgt, h3]
      intro hxs
      subst hxs
      simp at h3

/-- Witness for C6 at a concrete input: two inputs, one named output. -/
theorem output_present_needs_single_input_witness :
    (([RefLt.Named "a"] : List RefLt) ≠ []) ∧
    unique_lifetimes [RefLt.Named "a"] ≤ 1 ∧
    ([RefLt.Named "b", RefLt.Named "c"] : List RefLt).length ≠ 1 ∧
    could_use_elision_core [RefLt.Named "b", RefLt.Named "c"] [RefLt.Named "a"] = false :=
  ⟨by decide, by decide, by decide,
   output_present_needs_single_input _ _ (by decide) (by decide) (by decide)⟩

/-- Claim C7: an empty input sequence makes the decider return `false` for
every output sequence; in particular a signature with no reference
parameter and a non-reference return type gets verdict `false`. -/
theorem empty_input_never_elidable :
    (∀ output_lts : List RefLt, could_use_elision_core [] output_lts = false) ∧
    could_use_elision FnKind.FkItemFn
      { inputs := [Ty.path "i32" [] []], output := some (Ty.path "bool" [] []) } = false := by
  refine ⟨fun output_lts => ?_, by decide⟩
  simp [could_use_elision_core]

/-- Claim C8: an input sequence consisting of exactly one `Unnamed`
descriptor with an empty output sequence makes the decider return `false`;
in particular every signature whose only reference is one unannotated
input reference, with no declared return type, gets verdict `false`. -/
theorem single_unnamed_input_not_flagged :
    could_use_elision_core [RefLt.Unnamed] [] = false ∧
    (∀ seg : String, could_use_elision FnKind.FkItemFn
        { inputs := [Ty.ref none (Ty.path seg [] [])], output := none } = false) := by
  refine ⟨by decide, fun seg => ?_⟩
  simp [could_use_elision, fn_input_lts, fn_output_lts, walk_ty, walk_ty_list,
        RefVisitor.record, could_use_elision_core]

/-- Claim C9: the uniqueness count is invariant under permutation of the
sequence. -/
theorem unique_lifetimes_perm_invariant (l1 l2 : List RefLt) (h : l1.Perm l2) :
    unique_lifetimes l1 = unique_lifetimes l2 := by
  rw [unique_lifetimes, unique_lifetimes, List.toFinset_eq_of_perm _ _ h]

/-- Witness for C9 at a concrete input: a transposition. -/
theorem unique_lifetimes_perm_invariant_witness :
    ([RefLt.Unnamed, RefLt.Named "a"].Perm [RefLt.Named "a", RefLt.Unnamed]) ∧
    unique_lifetimes [RefLt.Unnamed, RefLt.Named "a"] =
      unique_lifetimes [RefLt.Named "a", RefLt.Unnamed] :=
  ⟨List.Perm.swap _ _ _, unique_lifetimes_perm_invariant _ _ (List.Perm.swap _ _ _)⟩

/-- Claim C10: no `Named` descriptor produced by the extractor carries the
static identifier — an annotation whose name reads `'static` is recorded
as the `Static` variant, so `Static` and `Named` never alias. -/
theorem named_descriptors_never_static :
    (∀ (t : Ty) (n : String), RefLt.Named n ∈ walk_ty t → n ≠ "\x27static") ∧
    (∀ lt : Lifetime, lt.name = "\x27static" →
        RefVisitor.record (some lt) = RefLt.Static) := by
  refine ⟨walk_named_ne_static.1, fun lt h => ?_⟩
  simp [RefVisitor.record, h]

/-- Witness for C10 at a concrete input: a named region and the static
region. -/
theorem named_descriptors_never_static_witness :
    (RefLt.Named "\x27a" ∈ walk_ty (Ty.ref (some (Lifetime.mk "\x27a")) (Ty.path "i32" [] []))) ∧
    ("\x27a" : String) ≠ "\x27static" ∧
    RefVisitor.record (some (Lifetime.mk "\x27static")) = RefLt.Static :=
  ⟨by decide,
   named_descriptors_never_static.1
     (Ty.ref (some (Lifetime.mk "\x27a")) (Ty.path "i32" [] [])) "\x27a" (by decide),
   named_descriptors_never_static.2 (Lifetime.mk "\x27static") rfl⟩
